import Mathlib

/-! Storage client of supabase-go: request construction and error mapping.

A shallow embedding of `storage.go`.  Go strings are Lean strings, Go `int`
is `Int`, byte slices are lists of bytes.  The network, the URL parser of
`net/http` and the syntax layer of `encoding/json` are collaborators outside
the package; they enter the model as explicit arguments.
-/

set_option autoImplicit false

namespace Supabase

/-! ## Path normalisation -/

/-- Leftmost, non-overlapping replacement of the two-character match `//` by
`/`, which is what `regexp.MustCompile("\/\/").ReplaceAllString(s, "/")`
computes: the scan resumes right after each match. -/
def replaceAllSlashSlash : List Char → List Char
  | '/' :: '/' :: rest => '/' :: replaceAllSlashSlash rest
  | c :: rest => c :: replaceAllSlashSlash rest
  | [] => []

/-- Source: `removeEmptyFolder` (storage.go, line 692). -/
def removeEmptyFolder (filePath : String) : String :=
  ⟨replaceAllSlashSlash filePath.data⟩

/-- Whether a character sequence contains the doubled separator `//`. -/
def hasDoubledSeparator : List Char → Bool
  | '/' :: '/' :: _ => true
  | _ :: rest => hasDoubledSeparator rest
  | [] => false

/-! ## Values shared by all operations -/

/-- A byte slice. -/
abbrev Bytes := List UInt8

/-- Source: `FileErrorResponse` (line 204); the JSON names are `statusCode`,
`error` and `message`. -/
structure FileErrorResponse where
  StatusCode : String
  ShortError : String
  Message : String
  deriving DecidableEq, Repr

/-- Source: `(*FileErrorResponse).Error` (line 210). -/
def FileErrorResponse.Error (err : FileErrorResponse) : String :=
  err.ShortError ++ ": " ++ err.Message

/-- Go `error` values that the package can hand to its caller. -/
inductive GoError where
  /-- an error made outside the package (net/http, io, encoding/json) -/
  | external (msg : String)
  /-- `fmt.Errorf` without a wrapped error: only the formatted text -/
  | errorf (msg : String)
  /-- `fmt.Errorf("<ctx>: %w", inner)` -/
  | wrap (ctx : String) (inner : GoError)
  /-- the sentinel `ErrNotFound` (line 47) -/
  | ErrNotFound
  /-- a non-nil `*FileErrorResponse` returned as an error -/
  | fileError (r : FileErrorResponse)
  deriving DecidableEq, Repr

/-- What running a Go function body ends in: a return or a run-time panic. -/
inductive Outcome (α : Type) where
  | ret (a : α)
  | panic (msg : String)
  deriving DecidableEq, Repr

/-- JSON documents.  A number keeps its literal text. -/
inductive Json where
  | null
  | bool (b : Bool)
  | num (lit : String)
  | str (s : String)
  | arr (xs : List Json)
  | obj (kvs : List (String × Json))
  deriving Repr

/-- The request payloads the package sends. -/
inductive ReqBody where
  /-- a nil body -/
  | none
  /-- the bytes `json.Marshal` makes of the document -/
  | json (j : Json)
  /-- a reader over caller-supplied data -/
  | stream (data : Bytes)
  deriving Repr

/-! ## `http.Header` -/

/-- The bytes `net/textproto` accepts in a header field name. -/
def validHeaderFieldByte (c : Char) : Bool :=
  c.isAlphanum || [33, 35, 36, 37, 38, 39, 42, 43, 45, 46, 94, 95, 96, 124, 126].contains c.toNat

/-- Upper-case a letter at the start and after a hyphen, lower-case the others. -/
def canonicalLetters : Bool → List Char → List Char
  | _, [] => []
  | upper, c :: cs =>
    (if upper then c.toUpper else c.toLower) :: canonicalLetters (c == '-') cs

/-- Go `textproto.CanonicalMIMEHeaderKey`: a name with a byte that is not a
field byte is left as it is. -/
def CanonicalMIMEHeaderKey (s : String) : String :=
  if s.data.all validHeaderFieldByte then ⟨canonicalLetters true s.data⟩ else s

/-- A header map with one value per name, all this package ever stores. -/
abbrev Header := List (String × String)

/-- Go `Header.Set`: replace what is stored under the canonical name. -/
def Header.Set (h : Header) (key value : String) : Header :=
  (CanonicalMIMEHeaderKey key, value) :: h.filter (fun kv => kv.1 != CanonicalMIMEHeaderKey key)

/-- Go `Header.Get`: the value under the canonical name, `""` when absent. -/
def Header.Get (h : Header) (key : String) : String :=
  match h.find? (fun kv => kv.1 == CanonicalMIMEHeaderKey key) with
  | some kv => kv.2
  | Option.none => ""

/-! ## Requests, responses and the collaborators outside the package -/

/-- The parts of `*http.Request` the package sets. -/
structure Request where
  Method : String
  URL : String
  Header : Header
  Body : ReqBody
  deriving Repr

/-- The parts of `*http.Response` the package reads.  `Body` is what
`io.ReadAll(res.Body)` returns. -/
structure Response where
  StatusCode : Int
  Header : Header
  Body : Except GoError Bytes

/-- The standard-library collaborators: the URL parser behind
`http.NewRequest`, the round trip of `http.Client.Do`, and the syntax layer of
`json.Unmarshal` (a syntax error is reported as an error value). -/
structure Net where
  parseURL : String → Option GoError
  Do : Request → Except GoError Response
  parseJSON : Bytes → Except GoError Json
  /-- whether `encoding/json` takes a key for a field name it does not equal:
  the two are the same under its case folding -/
  foldEqual : String → String → Bool

/-- Source: `http.NewRequest` and `http.NewRequestWithContext` with a non-nil
context and one of the standard methods: they fail only on the URL. -/
def NewRequest (net : Net) (method url : String) (body : ReqBody) : Except GoError Request :=
  match net.parseURL url with
  | some e => .error e
  | Option.none => .ok { Method := method, URL := url, Header := [], Body := body }

/-- The client value of the package: base URL and API key. -/
structure Client where
  BaseURL : String
  apiKey : String
  deriving DecidableEq, Repr

/-- Source: `Storage` (line 16). -/
structure Storage where
  client : Client
  deriving DecidableEq, Repr

/-- Modelled from the spec: `injectAuthorizationHeader` is not among the
sources; the spec says it puts `Authorization: Bearer {apiKey}` on the
request. -/
def injectAuthorizationHeader (req : Request) (value : String) : Request :=
  { req with Header := req.Header.Set "Authorization" ("Bearer " ++ value) }

/-- `req.Header.Set(key, value)` on a request. -/
def Request.setHeader (req : Request) (key value : String) : Request :=
  { req with Header := req.Header.Set key value }

/-! ## Bucket operations -/

/-- Source: `bucket` (line 22). -/
structure bucket where
  Name : String
  deriving DecidableEq, Repr

/-- Source: `bucketResponse` (line 25). -/
structure bucketResponse where
  Id : String
  Name : String
  Owner : String
  Created_at : String
  Updated_at : String
  deriving DecidableEq, Repr

/-- Source: `bucketMessage` (line 32). -/
structure bucketMessage where
  Message : String
  deriving DecidableEq, Repr

/-- Source: `BucketOption` (line 36). -/
structure BucketOption where
  Id : String
  Name : String
  Public : Bool
  deriving DecidableEq, Repr

/-- The document `json.Marshal` makes of a `BucketOption`: the fields in
declaration order under their JSON names. -/
def BucketOption.toJson (o : BucketOption) : Json :=
  .obj [("id", .str o.Id), ("name", .str o.Name), ("public", .bool o.Public)]

/-- Source: `storageError` (line 42). -/
structure storageError where
  Err : String
  Message : String
  deriving DecidableEq, Repr

/-- The zero value `storageError{}`. -/
def storageError.zero : storageError := { Err := "", Message := "" }

/-- Source: `Storage.CreateBucket` (line 52).  `sendRequest` is the shared send
routine of the client: it fills the result or reports an error. -/
def Storage.CreateBucket (net : Net) (StorageEndpoint : String) (s : Storage)
    (sendRequest : Request → Except GoError bucket) (option : BucketOption) :
    Except GoError bucket :=
  let reqBody := option.toJson
  let reqURL := s.client.BaseURL ++ "/" ++ StorageEndpoint ++ "/bucket"
  match NewRequest net "POST" reqURL (.json reqBody) with
  | .error err => .error err
  | .ok req =>
    let req := req.setHeader "Content-Type" "application/json"
    let req := injectAuthorizationHeader req s.client.apiKey
    let errRes := storageError.zero
    match sendRequest req with
    | .error _ => .error (.errorf (errRes.Err ++ "\n" ++ errRes.Message))
    | .ok res => .ok res

/-- Source: `Storage.GetBucket` (line 74). -/
def Storage.GetBucket (net : Net) (StorageEndpoint : String) (s : Storage)
    (sendRequest : Request → Except GoError bucketResponse) (id : String) :
    Except GoError bucketResponse :=
  let reqURL := s.client.BaseURL ++ "/" ++ StorageEndpoint ++ "/bucket/" ++ id
  match NewRequest net "GET" reqURL .none with
  | .error err => .error err
  | .ok req =>
    let req := req.setHeader "Content-Type" "application/json"
    let req := injectAuthorizationHeader req s.client.apiKey
    let errRes := storageError.zero
    match sendRequest req with
    | .error _ => .error (.errorf (errRes.Err ++ " \n " ++ errRes.Message))
    | .ok res => .ok res

/-- Source: `Storage.ListBuckets` (line 95). -/
def Storage.ListBuckets (net : Net) (StorageEndpoint : String) (s : Storage)
    (sendRequest : Request → Except GoError (List bucketResponse)) :
    Except GoError (List bucketResponse) :=
  let reqURL := s.client.BaseURL ++ "/" ++ StorageEndpoint ++ "/bucket/"
  match NewRequest net "GET" reqURL .none with
  | .error err => .error err
  | .ok req =>
    let req := req.setHeader "Content-Type" "application/json"
    let req := injectAuthorizationHeader req s.client.apiKey
    let errRes := storageError.zero
    match sendRequest req with
    | .error _ => .error (.errorf (errRes.Err ++ " \n " ++ errRes.Message))
    | .ok res => .ok res

/-- Source: `Storage.EmptyBucket` (line 117). -/
def Storage.EmptyBucket (net : Net) (StorageEndpoint : String) (s : Storage)
    (sendRequest : Request → Except GoError bucketMessage) (id : String) :
    Except GoError bucketMessage :=
  let reqURL := s.client.BaseURL ++ "/" ++ StorageEndpoint ++ "/bucket/" ++ id ++ "/empty"
  match NewRequest net "POST" reqURL .none with
  | .error err => .error err
  | .ok req =>
    let req := req.setHeader "Content-Type" "application/json"
    let req := injectAuthorizationHeader req s.client.apiKey
    let errRes := storageError.zero
    match sendRequest req with
    | .error _ => .error (.errorf (errRes.Err ++ " \n " ++ errRes.Message))
    | .ok res => .ok res

/-- Source: `Storage.UpdateBucket` (line 140). -/
def Storage.UpdateBucket (net : Net) (StorageEndpoint : String) (s : Storage)
    (sendRequest : Request → Except GoError bucketMessage) (id : String)
    (option : BucketOption) : Except GoError bucketMessage :=
  let reqBody := option.toJson
  let reqURL := s.client.BaseURL ++ "/" ++ StorageEndpoint ++ "/bucket/" ++ id
  match NewRequest net "PUT" reqURL (.json reqBody) with
  | .error err => .error err
  | .ok req =>
    let req := req.setHeader "Content-Type" "application/json"
    let req := injectAuthorizationHeader req s.client.apiKey
    let errRes := storageError.zero
    match sendRequest req with
    | .error _ => .error (.errorf (errRes.Err ++ " \n " ++ errRes.Message))
    | .ok res => .ok res

/-- Source: `Storage.DeleteBucket` (line 162). -/
def Storage.DeleteBucket (net : Net) (StorageEndpoint : String) (s : Storage)
    (sendRequest : Request → Except GoError bucketResponse) (id : String) :
    Except GoError bucketResponse :=
  let reqURL := s.client.BaseURL ++ "/" ++ StorageEndpoint ++ "/bucket/" ++ id
  match NewRequest net "DELETE" reqURL .none with
  | .error err => .error err
  | .ok req =>
    let req := req.setHeader "Content-Type" "application/json"
    let req := injectAuthorizationHeader req s.client.apiKey
    let errRes := storageError.zero
    match sendRequest req with
    | .error _ => .error (.errorf (errRes.Err ++ "\n" ++ errRes.Message))
    | .ok res => .ok res

/-! ## Object operations: data -/

/-- Source: `file` (line 187). -/
structure file where
  BucketId : String
  storage : Storage
  deriving DecidableEq, Repr

/-- Source: `Storage.From` (line 181). -/
def Storage.From (s : Storage) (bucketId : String) : file :=
  { BucketId := bucketId, storage := s }

/-- Source: `SortBy` (line 192). -/
structure SortBy where
  Column : String
  Order : String
  deriving DecidableEq, Repr

/-- Source: `FileResponse` (line 197). -/
structure FileResponse where
  Key : String
  Message : String
  deriving DecidableEq, Repr

/-- Source: `FileSearchOptions` (line 214). -/
structure FileSearchOptions where
  Limit : Int
  Offset : Int
  SortBy : SortBy
  deriving DecidableEq, Repr

/-- Source: `ListFileRequest` (line 232). -/
structure ListFileRequest where
  Limit : Int
  Offset : Int
  SortBy : SortBy
  Prefix : String
  deriving DecidableEq, Repr

/-- The document `json.Marshal` makes of a `ListFileRequest`. -/
def ListFileRequest.toJson (r : ListFileRequest) : Json :=
  .obj [("limit", .num (toString r.Limit)), ("offset", .num (toString r.Offset)),
    ("sortBy", .obj [("column", .str r.SortBy.Column), ("order", .str r.SortBy.Order)]),
    ("prefix", .str r.Prefix)]

/-- Source: `SignedURLForUploadResponse` (line 239). -/
structure SignedURLForUploadResponse where
  SignedURL : String
  Token : String
  deriving DecidableEq, Repr

/-- Source: `SignedURLForDownloadResponse` (line 244). -/
structure SignedURLForDownloadResponse where
  SignedURL : String
  deriving DecidableEq, Repr

/-- Source: the constants of lines 248 to 256. -/
def defaultLimit : Int := 100
def defaultOffset : Int := 0
def defaultFileCacheControl : String := "3600"
def defaultFileContent : String := "text/plain;charset=UTF-8"
def defaultFileUpsert : Bool := false
def defaultSortColumn : String := "name"
def defaultSortOrder : String := "asc"

/-- Source: `FileUploadOptions` (line 258). -/
structure FileUploadOptions where
  CacheControl : String
  ContentType : String
  Upsert : Bool
  deriving DecidableEq, Repr

/-- Source: `FileMetadata` (line 264). -/
structure FileMetadata where
  MediaType : String
  deriving DecidableEq, Repr

/-- Go `strconv.FormatBool`. -/
def FormatBool (b : Bool) : String := if b then "true" else "false"

/-! ## Object operations: Upload and Update -/

/-- Source: lines 270 to 284 of `UploadOrUpdate`: the defaults, overridden by
what a non-nil `opts` carries. -/
def mergeUploadOptions (opts : Option FileUploadOptions) : FileUploadOptions :=
  let mergedOpts : FileUploadOptions :=
    { CacheControl := defaultFileCacheControl
      ContentType := defaultFileContent
      Upsert := defaultFileUpsert }
  match opts with
  | Option.none => mergedOpts
  | some opts =>
    let mergedOpts :=
      if opts.CacheControl ≠ "" then { mergedOpts with CacheControl := opts.CacheControl }
      else mergedOpts
    let mergedOpts :=
      if opts.ContentType ≠ "" then { mergedOpts with ContentType := opts.ContentType }
      else mergedOpts
    { mergedOpts with Upsert := opts.Upsert }

/-- The `reqURL` of `UploadOrUpdate` (line 303). -/
def file.uploadURL (StorageEndpoint : String) (f : file) (path : String) : String :=
  let _path := removeEmptyFolder (f.BucketId ++ "/" ++ path)
  f.storage.client.BaseURL ++ "/" ++ StorageEndpoint ++ "/object/" ++ _path

/-- Source: `file.UploadOrUpdate` (line 268) up to the request it hands to
`client.Do` (line 317); a failure of `http.NewRequest` is the `panic(err)` of
line 306. -/
def file.UploadOrUpdateRequest (net : Net) (StorageEndpoint : String) (f : file)
    (path : String) (data : Bytes) (update : Bool) (opts : Option FileUploadOptions) :
    Outcome Request :=
  let mergedOpts := mergeUploadOptions opts
  let body := ReqBody.stream data
  let method := if update then "PUT" else "POST"
  let reqURL := f.uploadURL StorageEndpoint path
  match NewRequest net method reqURL body with
  | .error _ => .panic "http.NewRequest"
  | .ok req =>
    let req := injectAuthorizationHeader req f.storage.client.apiKey
    let req := req.setHeader "cache-control" mergedOpts.CacheControl
    let req := req.setHeader "content-type" mergedOpts.ContentType
    let req := req.setHeader "x-upsert" (FormatBool mergedOpts.Upsert)
    let req := if !update then req.setHeader "content-type" defaultFileContent else req
    .ret req

/-- Source: `file.Update` (line 336): the request it sends. -/
def file.UpdateRequest (net : Net) (StorageEndpoint : String) (f : file)
    (path : String) (data : Bytes) (opts : Option FileUploadOptions) : Outcome Request :=
  f.UploadOrUpdateRequest net StorageEndpoint path data true opts

/-- Source: `file.Upload` (line 341): the request it sends. -/
def file.UploadRequest (net : Net) (StorageEndpoint : String) (f : file)
    (path : String) (data : Bytes) (opts : Option FileUploadOptions) : Outcome Request :=
  f.UploadOrUpdateRequest net StorageEndpoint path data false opts

/-! ## Object operations: Move, Copy, Remove, BulkRemove, List -/

/-- The map literal of `Move` (line 347) and of `Copy` (line 577), as
`json.Marshal` writes a map: the keys in sorted order. -/
def moveCopyBody (f : file) (fromPath toPath : String) : Json :=
  .obj [("bucketId", .str f.BucketId), ("destintionKey", .str toPath),
    ("sourceKey", .str fromPath)]

/-- The `reqURL` of `Move` (line 353). -/
def file.moveURL (StorageEndpoint : String) (f : file) : String :=
  f.storage.client.BaseURL ++ "/" ++ StorageEndpoint ++ "/object/move"

/-- Source: `file.Move` (line 346) up to the request it hands to `client.Do`. -/
def file.MoveRequest (net : Net) (StorageEndpoint : String) (f : file)
    (fromPath toPath : String) : Outcome Request :=
  let _json := moveCopyBody f fromPath toPath
  let reqURL := f.moveURL StorageEndpoint
  match NewRequest net "POST" reqURL (.json _json) with
  | .error _ => .panic "http.NewRequest"
  | .ok req => .ret (injectAuthorizationHeader req f.storage.client.apiKey)

/-- The `reqURL` of `Copy` (line 583). -/
def file.copyURL (StorageEndpoint : String) (f : file) : String :=
  f.storage.client.BaseURL ++ "/" ++ StorageEndpoint ++ "/object/copy/" ++ f.BucketId

/-- Source: `file.Copy` (line 576) up to the request it hands to `client.Do`. -/
def file.CopyRequest (net : Net) (StorageEndpoint : String) (f : file)
    (fromPath toPath : String) : Outcome Request :=
  let _json := moveCopyBody f fromPath toPath
  let reqURL := f.copyURL StorageEndpoint
  match NewRequest net "POST" reqURL (.json _json) with
  | .error _ => .panic "http.NewRequest"
  | .ok req => .ret (injectAuthorizationHeader req f.storage.client.apiKey)

/-- What `sendCustomRequest(req, &resp, &errResp)` leaves behind: the two
values it may have filled and its two results. -/
structure CustomResult (α : Type) where
  resp : α
  errResp : FileErrorResponse
  hasCustomError : Bool
  err : Option GoError

/-- The `reqURL` of `Remove` (line 461). -/
def file.removeURL (StorageEndpoint : String) (f : file) (filePath : String) : String :=
  f.storage.client.BaseURL ++ "/" ++ StorageEndpoint ++ "/object/" ++ f.BucketId ++ "/" ++ filePath

/-- Source: `file.Remove` (line 458); `Option.none` is the nil error. -/
def file.Remove (net : Net) (StorageEndpoint : String) (f : file)
    (sendCustomRequest : Request → CustomResult Unit) (filePath : String) : Option GoError :=
  let reqURL := f.removeURL StorageEndpoint filePath
  match NewRequest net "DELETE" reqURL .none with
  | .error err => some (.wrap "creating http request" err)
  | .ok req =>
    let req := injectAuthorizationHeader req f.storage.client.apiKey
    let r := sendCustomRequest req
    match r.err with
    | some err => some (.wrap "sending http request" err)
    | Option.none => if r.hasCustomError then some (.fileError r.errResp) else Option.none

/-- The `reqURL` of `BulkRemove` (line 487). -/
def file.bulkRemoveURL (StorageEndpoint : String) (f : file) : String :=
  f.storage.client.BaseURL ++ "/" ++ StorageEndpoint ++ "/object/" ++ f.BucketId

/-- Source: `file.BulkRemove` (line 482) up to the request it hands to
`client.Do`. -/
def file.BulkRemoveRequest (net : Net) (StorageEndpoint : String) (f : file)
    (filePaths : List String) : Outcome Request :=
  let _json := Json.obj [("prefixes", .arr (filePaths.map Json.str))]
  let reqURL := f.bulkRemoveURL StorageEndpoint
  match NewRequest net "DELETE" reqURL (.json _json) with
  | .error _ => .panic "http.NewRequest"
  | .ok req =>
    let req := injectAuthorizationHeader req f.storage.client.apiKey
    .ret (req.setHeader "Content-Type" "application/json")

/-- Source: lines 522 to 533 of `List`: the zero-valued fields of the options
take their defaults. -/
def fillSearchOptions (options : FileSearchOptions) : FileSearchOptions :=
  let options := if options.Limit = 0 then { options with Limit := defaultLimit } else options
  let options := if options.Offset = 0 then { options with Offset := defaultOffset } else options
  let options :=
    if options.SortBy.Order = "" then
      { options with SortBy := { options.SortBy with Order := defaultSortOrder } }
    else options
  let options :=
    if options.SortBy.Column = "" then
      { options with SortBy := { options.SortBy with Column := defaultSortColumn } }
    else options
  options

/-- Source: lines 522 to 543 of `List`: the `_body` value. -/
def listBody (queryPath : String) (options : FileSearchOptions) : ListFileRequest :=
  let options := fillSearchOptions options
  { Limit := options.Limit
    Offset := options.Offset
    SortBy := { Column := options.SortBy.Column, Order := options.SortBy.Order }
    Prefix := queryPath }

/-- The `reqURL` of `List` (line 547). -/
def file.listURL (StorageEndpoint : String) (f : file) : String :=
  f.storage.client.BaseURL ++ "/" ++ StorageEndpoint ++ "/object/list/" ++ f.BucketId

/-- Source: `file.List` (line 521) up to the request it hands to `client.Do`.
When `http.NewRequest` fails the request is nil and line 549 panics. -/
def file.ListRequest (net : Net) (StorageEndpoint : String) (f : file)
    (queryPath : String) (options : FileSearchOptions) : Outcome Request :=
  let _body := listBody queryPath options
  let _json := _body.toJson
  let reqURL := f.listURL StorageEndpoint
  match NewRequest net "POST" reqURL (.json _json) with
  | .error _ => .panic "runtime error: invalid memory address or nil pointer dereference"
  | .ok req =>
    let req := req.setHeader "Content-Type" "application/json"
    .ret (injectAuthorizationHeader req f.storage.client.apiKey)

/-! ## Object operations: signed and public URLs -/

/-- The request payload of the two signing operations (lines 381 and 416). -/
def expiresInBody (expiresIn : Int) : Json :=
  .obj [("expiresIn", .num (toString expiresIn))]

/-- The `reqURL` of `CreateSignedURLForUpload` (line 390). -/
def file.signUploadURL (StorageEndpoint : String) (f : file) (filePath : String) : String :=
  f.storage.client.BaseURL ++ "/" ++ StorageEndpoint ++ "/object/upload/sign/" ++ f.BucketId
    ++ "/" ++ filePath

/-- Source: `file.CreateSignedURLForUpload` (line 380).  Marshalling a map
with one `int` cannot fail, so line 385 is not reachable. -/
def file.CreateSignedURLForUpload (net : Net) (StorageEndpoint : String) (f : file)
    (sendCustomRequest : Request → CustomResult SignedURLForUploadResponse)
    (filePath : String) (expiresIn : Int) : Except GoError SignedURLForUploadResponse :=
  let reqBody := expiresInBody expiresIn
  let reqURL := f.signUploadURL StorageEndpoint filePath
  match NewRequest net "POST" reqURL (.json reqBody) with
  | .error err => .error (.wrap "creating http request" err)
  | .ok req =>
    let req := injectAuthorizationHeader req f.storage.client.apiKey
    let req := req.setHeader "Content-Type" "application/json"
    let r := sendCustomRequest req
    match r.err with
    | some err => .error (.wrap "sending http request" err)
    | Option.none =>
      if r.hasCustomError then .error (.fileError r.errResp)
      else
        let resp := r.resp
        .ok { resp with
          SignedURL := f.storage.client.BaseURL ++ "/" ++ StorageEndpoint ++ resp.SignedURL }

/-- The `reqURL` of `CreateSignedURLForDownload` (line 425). -/
def file.signDownloadURL (StorageEndpoint : String) (f : file) (filePath : String) : String :=
  f.storage.client.BaseURL ++ "/" ++ StorageEndpoint ++ "/object/sign/" ++ f.BucketId
    ++ "/" ++ filePath

/-- Source: `file.CreateSignedURLForDownload` (line 415). -/
def file.CreateSignedURLForDownload (net : Net) (StorageEndpoint : String) (f : file)
    (sendCustomRequest : Request → CustomResult SignedURLForDownloadResponse)
    (filePath : String) (expiresIn : Int) : Except GoError SignedURLForDownloadResponse :=
  let reqBody := expiresInBody expiresIn
  let reqURL := f.signDownloadURL StorageEndpoint filePath
  match NewRequest net "POST" reqURL (.json reqBody) with
  | .error err => .error (.wrap "creating http request" err)
  | .ok req =>
    let req := injectAuthorizationHeader req f.storage.client.apiKey
    let req := req.setHeader "Content-Type" "application/json"
    let r := sendCustomRequest req
    match r.err with
    | some err => .error (.wrap "sending http request" err)
    | Option.none =>
      if r.hasCustomError then .error (.fileError r.errResp)
      else
        let resp := r.resp
        .ok { resp with
          SignedURL := f.storage.client.BaseURL ++ "/" ++ StorageEndpoint ++ resp.SignedURL }

/-- Source: `file.GetPublicURL` (line 451). -/
def file.GetPublicURL (StorageEndpoint : String) (f : file) (filePath : String) :
    SignedURLForDownloadResponse :=
  { SignedURL := f.storage.client.BaseURL ++ "/" ++ StorageEndpoint ++ "/object/public/"
      ++ f.BucketId ++ "/" ++ filePath }

/-! ## Object operations: Download and GetFileMetadata -/

/-- The struct field `encoding/json` stores a key into: the field of that
exact JSON name, else the first one equal to it under case folding. -/
def findField (net : Net) (fields : List String) (key : String) : Option String :=
  match fields.find? (fun n => n == key) with
  | some n => some n
  | Option.none => fields.find? (fun n => net.foldEqual n key)

/-- The error `json.Unmarshal` reports when a JSON value does not fit the Go
type it is stored into. -/
def unmarshalTypeError : GoError := .external "json: cannot unmarshal value into Go value"

/-- One member of a JSON object stored into a `FileErrorResponse`: a string is
stored, `null` and unknown keys are skipped, any other value is a type error
that is kept (the first one) while decoding goes on. -/
def storeErrorMember (net : Net) (acc : FileErrorResponse × Option GoError)
    (kv : String × Json) : FileErrorResponse × Option GoError :=
  match findField net ["statusCode", "error", "message"] kv.1 with
  | Option.none => acc
  | some name =>
    match kv.2 with
    | .str v =>
      if name = "statusCode" then ({ acc.1 with StatusCode := v }, acc.2)
      else if name = "error" then ({ acc.1 with ShortError := v }, acc.2)
      else ({ acc.1 with Message := v }, acc.2)
    | .null => acc
    | _ => (acc.1, match acc.2 with | some e => some e | Option.none => some unmarshalTypeError)

/-- Go `json.Unmarshal(body, &resErr)` for `var resErr *FileErrorResponse`
(lines 633 and 680).  `Option.none` in the result is the pointer left nil:
the JSON value `null` sets a pointer to nil and is no error; an object
allocates the struct and fills it; any other value is a type error. -/
def unmarshalFileErrorResponse (net : Net) (body : Bytes) :
    Except GoError (Option FileErrorResponse) :=
  match net.parseJSON body with
  | .error e => .error e
  | .ok .null => .ok Option.none
  | .ok (.obj kvs) =>
    match kvs.foldl (storeErrorMember net) ({ StatusCode := "", ShortError := "", Message := "" }, Option.none) with
    | (_, some e) => .error e
    | (r, Option.none) => .ok (some r)
  | .ok _ => .error unmarshalTypeError

/-- The message of the run-time panic on a nil pointer. -/
def nilDereference : String :=
  "runtime error: invalid memory address or nil pointer dereference"

/-- Source: lines 633 to 642 of `Download` and lines 680 to 689 of
`GetFileMetadata`, which are the same statements: decode the error body,
read `resErr.StatusCode`, return the sentinel or the decoded error. -/
def failureOf (net : Net) (body : Bytes) : Outcome GoError :=
  match unmarshalFileErrorResponse net body with
  | .error err => .ret (.wrap "unmarshaling error response" err)
  | .ok Option.none => .panic nilDereference
  | .ok (some resErr) =>
    if resErr.StatusCode = "404" then .ret .ErrNotFound else .ret (.fileError resErr)

/-- The `reqURL` of `Download` (line 612). -/
def file.downloadURL (StorageEndpoint : String) (f : file) (filePath : String) : String :=
  f.storage.client.BaseURL ++ "/" ++ StorageEndpoint ++ "/object/authenticated/" ++ f.BucketId
    ++ "/" ++ filePath

/-- Source: `file.Download` (line 611). -/
def file.Download (net : Net) (StorageEndpoint : String) (f : file) (filePath : String) :
    Outcome (Except GoError Bytes) :=
  let reqURL := f.downloadURL StorageEndpoint filePath
  match NewRequest net "GET" reqURL .none with
  | .error err => .ret (.error (.wrap "creating http request" err))
  | .ok req =>
    let req := injectAuthorizationHeader req f.storage.client.apiKey
    match net.Do req with
    | .error err => .ret (.error (.wrap "sending http request" err))
    | .ok res =>
      match res.Body with
      | .error err => .ret (.error (.wrap "reading response body" err))
      | .ok body =>
        if res.StatusCode ≠ 200 then
          match failureOf net body with
          | .panic msg => .panic msg
          | .ret err => .ret (.error err)
        else .ret (.ok body)

/-- The `reqURL` of `GetFileMetadata` (line 653). -/
def file.metadataURL (StorageEndpoint : String) (f : file) (filePath : String) : String :=
  f.storage.client.BaseURL ++ "/" ++ StorageEndpoint ++ "/object/info/authenticated/"
    ++ f.BucketId ++ "/" ++ filePath

/-- Source: `file.GetFileMetadata` (line 650). -/
def file.GetFileMetadata (net : Net) (StorageEndpoint : String) (f : file)
    (filePath : String) : Outcome (Except GoError FileMetadata) :=
  let reqURL := f.metadataURL StorageEndpoint filePath
  match NewRequest net "GET" reqURL .none with
  | .error err => .ret (.error (.wrap "creating http request" err))
  | .ok req =>
    let req := injectAuthorizationHeader req f.storage.client.apiKey
    match net.Do req with
    | .error err => .ret (.error (.wrap "sending http request" err))
    | .ok res =>
      if res.StatusCode = 200 then
        .ret (.ok { MediaType := res.Header.Get "Content-Type" })
      else
        match res.Body with
        | .error err => .ret (.error (.wrap "reading response body" err))
        | .ok body =>
          match failureOf net body with
          | .panic msg => .panic msg
          | .ret err => .ret (.error err)

/-! ## Concrete collaborators for evaluation -/

/-- ASCII case-insensitive equality of two keys. -/
def asciiFoldEqual (a b : String) : Bool := a.toLower == b.toLower

/-- A network that answers every request with the given status and body; its
JSON layer knows the listed documents only and rejects every other body. -/
def Net.answering (status : Int) (body : Bytes) (docs : List (Bytes × Json)) : Net :=
  { parseURL := fun _ => Option.none
    Do := fun _ => .ok { StatusCode := status, Header := [], Body := .ok body }
    parseJSON := fun b =>
      match docs.find? (fun d => d.1 == b) with
      | some d => .ok d.2
      | Option.none => .error (.external "invalid character")
    foldEqual := asciiFoldEqual }

/-! ## The collapsing rule in the words of its description -/

/-- Whether three separators stand in a row somewhere, that is, whether some
run of consecutive `/` is longer than two. -/
def hasTripleSeparator : List Char → Bool
  | '/' :: '/' :: '/' :: _ => true
  | _ :: rest => hasTripleSeparator rest
  | [] => false

/-- The number of occurrences of `//`: the positions at which a separator is
followed by a separator. -/
def countDoubledSeparator : List Char → Nat
  | '/' :: '/' :: rest => countDoubledSeparator ('/' :: rest) + 1
  | _ :: rest => countDoubledSeparator rest
  | [] => 0

/-- The input with every `//` replaced by a single `/`, read off the
description and not off the code: every occurrence of `//` loses its second
separator, so a `/` is dropped exactly when the character before it in the
input is a `/`.  `afterSeparator` tells whether the character before the
list is one. -/
def replaceEveryDoubled : Bool → List Char → List Char
  | _, [] => []
  | afterSeparator, c :: cs =>
    if afterSeparator && c == '/' then replaceEveryDoubled true cs
    else c :: replaceEveryDoubled (c == '/') cs

/-! ## Path segments of a URL -/

/-- What follows the first occurrence of `marker` in `l`, if it occurs. -/
def afterFirst (marker : List Char) : List Char → Option (List Char)
  | [] => if marker = [] then some [] else Option.none
  | c :: cs =>
    if marker.isPrefixOf (c :: cs) then some ((c :: cs).drop marker.length)
    else afterFirst marker cs

/-- The first path segment after `/object/` in a URL: the characters between
the first `/object/` and the next separator (or the end). -/
def firstSegmentAfterObject (url : String) : Option String :=
  (afterFirst "/object/".data url.data).map (fun r => ⟨r.takeWhile (fun c => c != '/')⟩)

/-- The member names of a JSON object, in order. -/
def Json.memberNames : Json → List String
  | .obj kvs => kvs.map (fun kv => kv.1)
  | _ => []

/-- The bytes of an ASCII text. -/
def asciiBytes (s : String) : Bytes := s.data.map (fun c => UInt8.ofNat c.toNat)

/-- The four bytes of the JSON document `null`. -/
def nullBody : Bytes := asciiBytes "null"

/-- The bytes of a 403 error body as the service writes it. -/
def forbiddenBody : Bytes :=
  asciiBytes "\x7b\"statusCode\":\"403\",\"error\":\"Forbidden\",\"message\":\"Access denied\"\x7d"

/-- The document of `forbiddenBody`. -/
def forbiddenDoc : Json :=
  .obj [("statusCode", .str "403"), ("error", .str "Forbidden"), ("message", .str "Access denied")]

/-- The bytes of the 404 error body of the service. -/
def notFoundBody : Bytes :=
  asciiBytes "\x7b\"statusCode\":\"404\",\"error\":\"not_found\",\"message\":\"Object not found\"\x7d"

/-- The document of `notFoundBody`. -/
def notFoundDoc : Json :=
  .obj [("statusCode", .str "404"), ("error", .str "not_found"), ("message", .str "Object not found")]

/-! ## Collaborators that show what they were asked -/

/-- Go `ishex` of `net/url`. -/
def ishex (c : Char) : Bool :=
  ('0' ≤ c && c ≤ '9') || ('a' ≤ c && c ≤ 'f') || ('A' ≤ c && c ≤ 'F')

/-- The escape check of `net/url`: whether some `%` is not followed by two
hexadecimal digits.  A valid escape is skipped as a whole. -/
def hasInvalidEscape : List Char → Bool
  | '%' :: a :: b :: rest => if ishex a && ishex b then hasInvalidEscape rest else true
  | '%' :: _ => true
  | _ :: rest => hasInvalidEscape rest
  | [] => false

/-- The network of `Net.answering` with a URL parser that rejects a URL with
an invalid escape, as `url.Parse` does, and accepts every other. -/
def Net.escapeChecking (status : Int) (body : Bytes) (docs : List (Bytes × Json)) : Net :=
  { Net.answering status body docs with
    parseURL := fun u =>
      if hasInvalidEscape u.data then some (.external "invalid URL escape") else Option.none }

/-- The same collaborators with a transport that refuses every request and
names, in its error, the URL of the request it was handed. -/
def Net.recording (net : Net) : Net :=
  { net with Do := fun req => .error (.external req.URL) }

/-- A send routine that fails on every request and names, in its error, the
URL of the request it was handed; `zero` is the untouched response value. -/
def recordingSend {α : Type} (zero : α) : Request → CustomResult α :=
  fun req =>
    { resp := zero
      errResp := { StatusCode := "", ShortError := "", Message := "" }
      hasCustomError := false
      err := some (.external req.URL) }

/-! ## Canonical names of the headers the package sets -/

theorem canonical_authorization : CanonicalMIMEHeaderKey "Authorization" = "Authorization" := by
  decide

theorem canonical_cache_control : CanonicalMIMEHeaderKey "cache-control" = "Cache-Control" := by
  decide

theorem canonical_content_type : CanonicalMIMEHeaderKey "content-type" = "Content-Type" := by
  decide

theorem canonical_content_type_upper : CanonicalMIMEHeaderKey "Content-Type" = "Content-Type" := by
  decide

theorem canonical_x_upsert : CanonicalMIMEHeaderKey "x-upsert" = "X-Upsert" := by
  decide

/-! ## `Header.Get` after `Header.Set` -/

theorem find_filter_of_imp {α : Type} (p q : α → Bool) (hpq : ∀ x, p x = true → q x = true)
    (l : List α) : (l.filter q).find? p = l.find? p := by
  induction l with
  | nil => rfl
  | cons a t ih =>
    by_cases hq : q a = true
    · by_cases hp : p a = true
      · simp [List.filter, hq, List.find?, hp]
      · simp [List.filter, hq, List.find?, hp, ih]
    · have hp : ¬ p a = true := fun h => hq (hpq a h)
      simp [List.filter, hq, List.find?, hp, ih]

theorem Header.get_set_same (h : Header) (k v : String) : (h.Set k v).Get k = v := by
  simp [Header.Set, Header.Get, List.find?]

theorem Header.get_set_other (h : Header) (k k2 v : String)
    (hne : CanonicalMIMEHeaderKey k ≠ CanonicalMIMEHeaderKey k2) :
    (h.Set k v).Get k2 = h.Get k2 := by
  have hfalse : (CanonicalMIMEHeaderKey k == CanonicalMIMEHeaderKey k2) = false := by
    simpa using hne
  have hfilter := find_filter_of_imp (fun kv : String × String => kv.1 == CanonicalMIMEHeaderKey k2)
    (fun kv => kv.1 != CanonicalMIMEHeaderKey k)
    (by
      intro x hx
      have hx2 : x.1 = CanonicalMIMEHeaderKey k2 := by simpa using hx
      simp only [bne_iff_ne, ne_eq, hx2]
      exact fun h2 => hne h2.symm) h
  simp only [Header.Set, Header.Get, List.find?, hfalse, hfilter]

/-! ## Path normalisation -/

/-- C1: `removeEmptyFolder` leaves a doubled separator in place when three
separators meet: `a///b` becomes `a//b`, not `a/b`, and the object URL that
`Upload` builds for bucket `b` and path `//x` still holds `b//x`. -/
theorem removeEmptyFolder_keeps_doubled_separator :
    removeEmptyFolder "a///b" = "a//b" ∧
    hasDoubledSeparator (removeEmptyFolder "a///b").data = true ∧
    removeEmptyFolder "a///b" ≠ "a/b" ∧
    file.uploadURL "storage/v1" (Storage.From ⟨⟨"https://x.supabase.co", "key"⟩⟩ "b") "//x"
      = "https://x.supabase.co/storage/v1/object/b//x" := by
  refine ⟨by decide, by decide, by decide, by decide⟩

/-! ## Upload and Update -/

/-- C2: `Upload` does not send the content type of its options: with
`ContentType = "image/png"` the request of `Upload` carries the default
`text/plain;charset=UTF-8`, while the request of `Update` for the same
arguments carries `image/png`. -/
theorem upload_drops_content_type_option :
    (∃ r, file.UploadRequest (Net.answering 200 [] []) "storage/v1"
        (Storage.From ⟨⟨"https://x.supabase.co", "key"⟩⟩ "b") "a.png" []
        (some { CacheControl := "", ContentType := "image/png", Upsert := false }) = .ret r ∧
      r.Method = "POST" ∧ r.Header.Get "content-type" = "text/plain;charset=UTF-8") ∧
    (∃ r, file.UpdateRequest (Net.answering 200 [] []) "storage/v1"
        (Storage.From ⟨⟨"https://x.supabase.co", "key"⟩⟩ "b") "a.png" []
        (some { CacheControl := "", ContentType := "image/png", Upsert := false }) = .ret r ∧
      r.Method = "PUT" ∧ r.Header.Get "content-type" = "image/png") := by
  refine ⟨⟨_, rfl, rfl, ?_⟩, ⟨_, rfl, rfl, ?_⟩⟩ <;> decide

theorem canonical_cache_ne_content :
    CanonicalMIMEHeaderKey "content-type" ≠ CanonicalMIMEHeaderKey "cache-control" := by decide

theorem canonical_upsert_ne_content :
    CanonicalMIMEHeaderKey "x-upsert" ≠ CanonicalMIMEHeaderKey "content-type" := by decide

theorem canonical_upsert_ne_cache :
    CanonicalMIMEHeaderKey "x-upsert" ≠ CanonicalMIMEHeaderKey "cache-control" := by decide

/-- The request of `UploadOrUpdate` once the URL is accepted: method, URL,
payload and the three option headers. -/
theorem uploadOrUpdateRequest_ret (net : Net) (StorageEndpoint : String) (f : file)
    (path : String) (data : Bytes) (update : Bool) (opts : Option FileUploadOptions)
    (hurl : net.parseURL (f.uploadURL StorageEndpoint path) = Option.none) :
    ∃ r, f.UploadOrUpdateRequest net StorageEndpoint path data update opts = .ret r ∧
      r.Method = (if update then "PUT" else "POST") ∧
      r.URL = f.uploadURL StorageEndpoint path ∧
      r.Body = .stream data ∧
      r.Header.Get "cache-control" = (mergeUploadOptions opts).CacheControl ∧
      r.Header.Get "content-type" =
        (if update then (mergeUploadOptions opts).ContentType else defaultFileContent) ∧
      r.Header.Get "x-upsert" = FormatBool (mergeUploadOptions opts).Upsert := by
  cases update
  · refine ⟨_, by simp only [file.UploadOrUpdateRequest, NewRequest, hurl]; rfl, rfl, rfl, rfl, ?_, ?_, ?_⟩
    · simp only [Request.setHeader, Bool.not_false, if_true]
      rw [Header.get_set_other _ _ _ _ canonical_cache_ne_content,
        Header.get_set_other _ _ _ _ canonical_upsert_ne_cache,
        Header.get_set_other _ _ _ _ canonical_cache_ne_content, Header.get_set_same]
    · simp only [Request.setHeader, Bool.not_false, if_true]
      rw [Header.get_set_same]
      rfl
    · simp only [Request.setHeader, Bool.not_false, if_true]
      rw [Header.get_set_other _ _ _ _ canonical_upsert_ne_content.symm, Header.get_set_same]
  · refine ⟨_, by simp only [file.UploadOrUpdateRequest, NewRequest, hurl]; rfl, rfl, rfl, rfl, ?_, ?_, ?_⟩
    · simp only [Request.setHeader, Bool.not_true]
      rw [if_neg (by decide), Header.get_set_other _ _ _ _ canonical_upsert_ne_cache,
        Header.get_set_other _ _ _ _ canonical_cache_ne_content, Header.get_set_same]
    · simp only [Request.setHeader, Bool.not_true]
      rw [if_neg (by decide), Header.get_set_other _ _ _ _ canonical_upsert_ne_content,
        Header.get_set_same]
      rfl
    · simp only [Request.setHeader, Bool.not_true]
      rw [if_neg (by decide), Header.get_set_same]

/-- C9, as stated, fails: for the path `%zz` the object URL holds an invalid
escape, `http.NewRequest` rejects it and `Upload` panics at line 306 before
any request exists, so `Upload("%zz", data, nil)` builds no request, with or
without the three headers. -/
theorem upload_builds_no_request_for_invalid_escape :
    file.UploadRequest (Net.escapeChecking 200 [] []) "storage/v1"
      (Storage.From ⟨⟨"https://x.supabase.co", "key"⟩⟩ "b") "%zz" [] Option.none
      = .panic "http.NewRequest" ∧
    ¬ (∃ r, file.UploadRequest (Net.escapeChecking 200 [] []) "storage/v1"
        (Storage.From ⟨⟨"https://x.supabase.co", "key"⟩⟩ "b") "%zz" [] Option.none = .ret r ∧
      r.Header.Get "cache-control" = "3600" ∧
      r.Header.Get "content-type" = "text/plain;charset=UTF-8" ∧
      r.Header.Get "x-upsert" = "false") ∧
    ¬ (∀ (net : Net) (StorageEndpoint : String) (f : file) (path : String) (data : Bytes),
      ∃ r, f.UploadRequest net StorageEndpoint path data Option.none = .ret r ∧
        r.Header.Get "cache-control" = "3600" ∧
        r.Header.Get "content-type" = "text/plain;charset=UTF-8" ∧
        r.Header.Get "x-upsert" = "false") := by
  have hpanic : file.UploadRequest (Net.escapeChecking 200 [] []) "storage/v1"
      (Storage.From ⟨⟨"https://x.supabase.co", "key"⟩⟩ "b") "%zz" [] Option.none
      = .panic "http.NewRequest" := by rfl
  refine ⟨hpanic, ?_, ?_⟩
  · rintro ⟨r, hr, _⟩
    rw [hpanic] at hr
    exact Outcome.noConfusion hr
  · intro hall
    obtain ⟨r, hr, _⟩ := hall (Net.escapeChecking 200 [] []) "storage/v1"
      (Storage.From ⟨⟨"https://x.supabase.co", "key"⟩⟩ "b") "%zz" []
    rw [hpanic] at hr
    exact Outcome.noConfusion hr

/-- C9, amended: for every path and payload whose object URL
`http.NewRequest` accepts, with nil options, and with options whose fields
are all zero-valued, the request of `Upload` carries `cache-control: 3600`,
`content-type: text/plain;charset=UTF-8` and `x-upsert: false`. -/
theorem upload_default_headers (net : Net) (StorageEndpoint : String) (f : file)
    (path : String) (data : Bytes)
    (hurl : net.parseURL (f.uploadURL StorageEndpoint path) = Option.none) :
    (∃ r, f.UploadRequest net StorageEndpoint path data Option.none = .ret r ∧
      r.Header.Get "cache-control" = "3600" ∧
      r.Header.Get "content-type" = "text/plain;charset=UTF-8" ∧
      r.Header.Get "x-upsert" = "false") ∧
    (∃ r, f.UploadRequest net StorageEndpoint path data
        (some { CacheControl := "", ContentType := "", Upsert := false }) = .ret r ∧
      r.Header.Get "cache-control" = "3600" ∧
      r.Header.Get "content-type" = "text/plain;charset=UTF-8" ∧
      r.Header.Get "x-upsert" = "false") := by
  constructor
  · obtain ⟨r, hr, _, _, _, hcache, hcontent, hupsert⟩ :=
      uploadOrUpdateRequest_ret net StorageEndpoint f path data false Option.none hurl
    exact ⟨r, hr, hcache, hcontent, hupsert⟩
  · obtain ⟨r, hr, _, _, _, hcache, hcontent, hupsert⟩ :=
      uploadOrUpdateRequest_ret net StorageEndpoint f path data false
        (some { CacheControl := "", ContentType := "", Upsert := false }) hurl
    exact ⟨r, hr, hcache, hcontent, hupsert⟩

/-- C9, amended, at bucket `b`, path `a.png`, an empty payload. -/
theorem upload_default_headers_witness :
    (∃ r, file.UploadRequest (Net.answering 200 [] []) "storage/v1"
        (Storage.From ⟨⟨"https://x.supabase.co", "key"⟩⟩ "b") "a.png" [] Option.none = .ret r ∧
      r.Header.Get "cache-control" = "3600" ∧
      r.Header.Get "content-type" = "text/plain;charset=UTF-8" ∧
      r.Header.Get "x-upsert" = "false") ∧
    (∃ r, file.UploadRequest (Net.answering 200 [] []) "storage/v1"
        (Storage.From ⟨⟨"https://x.supabase.co", "key"⟩⟩ "b") "a.png" []
        (some { CacheControl := "", ContentType := "", Upsert := false }) = .ret r ∧
      r.Header.Get "cache-control" = "3600" ∧
      r.Header.Get "content-type" = "text/plain;charset=UTF-8" ∧
      r.Header.Get "x-upsert" = "false") :=
  upload_default_headers (Net.answering 200 [] []) "storage/v1"
    (Storage.From ⟨⟨"https://x.supabase.co", "key"⟩⟩ "b") "a.png" [] rfl

/-! ## Bucket operations -/

/-- C3: when the send routine fails, the six bucket operations return an
error that does not depend on the failure: `errRes` is never filled, so the
text is the bare separator whatever the service reported, and two different
failures give the same error. -/
theorem bucket_operations_drop_failure_content (net : Net) (StorageEndpoint : String)
    (s : Storage) (option : BucketOption) (id : String) (e1 e2 : GoError) :
    (s.CreateBucket net StorageEndpoint (fun _ => .error e1) option
      = s.CreateBucket net StorageEndpoint (fun _ => .error e2) option ∧
     s.GetBucket net StorageEndpoint (fun _ => .error e1) id
      = s.GetBucket net StorageEndpoint (fun _ => .error e2) id ∧
     s.ListBuckets net StorageEndpoint (fun _ => .error e1)
      = s.ListBuckets net StorageEndpoint (fun _ => .error e2) ∧
     s.EmptyBucket net StorageEndpoint (fun _ => .error e1) id
      = s.EmptyBucket net StorageEndpoint (fun _ => .error e2) id ∧
     s.UpdateBucket net StorageEndpoint (fun _ => .error e1) id option
      = s.UpdateBucket net StorageEndpoint (fun _ => .error e2) id option ∧
     s.DeleteBucket net StorageEndpoint (fun _ => .error e1) id
      = s.DeleteBucket net StorageEndpoint (fun _ => .error e2) id) ∧
    (s.CreateBucket (Net.answering 200 [] []) StorageEndpoint (fun _ => .error e1) option
      = .error (.errorf "\n") ∧
     s.GetBucket (Net.answering 200 [] []) StorageEndpoint (fun _ => .error e1) id
      = .error (.errorf " \n ") ∧
     s.ListBuckets (Net.answering 200 [] []) StorageEndpoint (fun _ => .error e1)
      = .error (.errorf " \n ") ∧
     s.EmptyBucket (Net.answering 200 [] []) StorageEndpoint (fun _ => .error e1) id
      = .error (.errorf " \n ") ∧
     s.UpdateBucket (Net.answering 200 [] []) StorageEndpoint (fun _ => .error e1) id option
      = .error (.errorf " \n ") ∧
     s.DeleteBucket (Net.answering 200 [] []) StorageEndpoint (fun _ => .error e1) id
      = .error (.errorf "\n")) := by
  refine ⟨⟨?_, ?_, ?_, ?_, ?_, ?_⟩, ⟨rfl, rfl, rfl, rfl, rfl, rfl⟩⟩
  · simp only [Storage.CreateBucket]
  · simp only [Storage.GetBucket]
  · simp only [Storage.ListBuckets]
  · simp only [Storage.EmptyBucket]
  · simp only [Storage.UpdateBucket]
  · simp only [Storage.DeleteBucket]

/-! ## Download and GetFileMetadata -/

/-- The failure path once the request went out and a non-200 response with a
readable body came back: both operations end in what `failureOf` gives. -/
theorem download_failure_path (net : Net) (StorageEndpoint : String) (f : file)
    (filePath : String) (res : Response) (body : Bytes)
    (hurl : ∀ u, net.parseURL u = Option.none) (hdo : ∀ req, net.Do req = .ok res)
    (hstatus : res.StatusCode ≠ 200) (hbody : res.Body = .ok body) :
    f.Download net StorageEndpoint filePath =
      (match failureOf net body with
        | .panic msg => .panic msg
        | .ret err => .ret (.error err)) ∧
    f.GetFileMetadata net StorageEndpoint filePath =
      (match failureOf net body with
        | .panic msg => .panic msg
        | .ret err => .ret (.error err)) := by
  constructor
  · simp only [file.Download, NewRequest, hurl, hdo, hbody]
    rw [if_pos hstatus]
  · simp only [file.GetFileMetadata, NewRequest, hurl, hdo, hbody]
    rw [if_neg hstatus]

/-- C4: on a non-200 response whose body decodes to the error object `r`,
`Download` and `GetFileMetadata` return the same error: the sentinel
`ErrNotFound` exactly when `r.StatusCode` is `"404"`, and otherwise the error
that carries `r` itself (status code, short error and message as decoded). -/
theorem not_found_distinction (net : Net) (StorageEndpoint : String) (f : file)
    (filePath : String) (res : Response) (body : Bytes) (r : FileErrorResponse)
    (hurl : ∀ u, net.parseURL u = Option.none) (hdo : ∀ req, net.Do req = .ok res)
    (hstatus : res.StatusCode ≠ 200) (hbody : res.Body = .ok body)
    (hdec : unmarshalFileErrorResponse net body = .ok (some r)) :
    (r.StatusCode = "404" →
      f.Download net StorageEndpoint filePath = .ret (.error .ErrNotFound) ∧
      f.GetFileMetadata net StorageEndpoint filePath = .ret (.error .ErrNotFound)) ∧
    (r.StatusCode ≠ "404" →
      f.Download net StorageEndpoint filePath = .ret (.error (.fileError r)) ∧
      f.GetFileMetadata net StorageEndpoint filePath = .ret (.error (.fileError r))) ∧
    (f.Download net StorageEndpoint filePath = .ret (.error .ErrNotFound) ↔
      r.StatusCode = "404") ∧
    (f.GetFileMetadata net StorageEndpoint filePath = .ret (.error .ErrNotFound) ↔
      r.StatusCode = "404") := by
  obtain ⟨hd, hm⟩ := download_failure_path net StorageEndpoint f filePath res body hurl hdo
    hstatus hbody
  rw [hd, hm]
  simp only [failureOf, hdec]
  by_cases h404 : r.StatusCode = "404"
  · simp [h404]
  · simp [h404]

/-- C4 on a 403 response with the body
`statusCode: "403", error: "Forbidden", message: "Access denied"`. -/
theorem not_found_distinction_witness :
    (("403" : String) = "404" →
      file.Download (Net.answering 403 forbiddenBody [(forbiddenBody, forbiddenDoc)])
        "storage/v1" (Storage.From ⟨⟨"https://x.supabase.co", "key"⟩⟩ "b") "a.png"
        = .ret (.error .ErrNotFound) ∧
      file.GetFileMetadata (Net.answering 403 forbiddenBody [(forbiddenBody, forbiddenDoc)])
        "storage/v1" (Storage.From ⟨⟨"https://x.supabase.co", "key"⟩⟩ "b") "a.png"
        = .ret (.error .ErrNotFound)) ∧
    (("403" : String) ≠ "404" →
      file.Download (Net.answering 403 forbiddenBody [(forbiddenBody, forbiddenDoc)])
        "storage/v1" (Storage.From ⟨⟨"https://x.supabase.co", "key"⟩⟩ "b") "a.png"
        = .ret (.error (.fileError ⟨"403", "Forbidden", "Access denied"⟩)) ∧
      file.GetFileMetadata (Net.answering 403 forbiddenBody [(forbiddenBody, forbiddenDoc)])
        "storage/v1" (Storage.From ⟨⟨"https://x.supabase.co", "key"⟩⟩ "b") "a.png"
        = .ret (.error (.fileError ⟨"403", "Forbidden", "Access denied"⟩))) ∧
    (file.Download (Net.answering 403 forbiddenBody [(forbiddenBody, forbiddenDoc)])
        "storage/v1" (Storage.From ⟨⟨"https://x.supabase.co", "key"⟩⟩ "b") "a.png"
        = .ret (.error .ErrNotFound) ↔ ("403" : String) = "404") ∧
    (file.GetFileMetadata (Net.answering 403 forbiddenBody [(forbiddenBody, forbiddenDoc)])
        "storage/v1" (Storage.From ⟨⟨"https://x.supabase.co", "key"⟩⟩ "b") "a.png"
        = .ret (.error .ErrNotFound) ↔ ("403" : String) = "404") :=
  not_found_distinction (Net.answering 403 forbiddenBody [(forbiddenBody, forbiddenDoc)])
    "storage/v1" (Storage.From ⟨⟨"https://x.supabase.co", "key"⟩⟩ "b") "a.png"
    { StatusCode := 403, Header := [], Body := .ok forbiddenBody } forbiddenBody
    ⟨"403", "Forbidden", "Access denied"⟩ (fun _ => rfl) (fun _ => rfl) (by decide) rfl
    (by rfl)

/-- The 404 body of the service, `statusCode: "404", error: "not_found",
message: "Object not found"`, gives the sentinel in both operations. -/
theorem not_found_body_gives_sentinel :
    file.Download (Net.answering 404 notFoundBody [(notFoundBody, notFoundDoc)])
      "storage/v1" (Storage.From ⟨⟨"https://x.supabase.co", "key"⟩⟩ "b") "a.png"
      = .ret (.error .ErrNotFound) ∧
    file.GetFileMetadata (Net.answering 404 notFoundBody [(notFoundBody, notFoundDoc)])
      "storage/v1" (Storage.From ⟨⟨"https://x.supabase.co", "key"⟩⟩ "b") "a.png"
      = .ret (.error .ErrNotFound) :=
  ⟨rfl, rfl⟩

/-- C5: `Download` panics on a non-200 response whose body is the JSON
document `null`: `json.Unmarshal` leaves `resErr` nil without an error and
line 638 reads `resErr.StatusCode` through the nil pointer. -/
theorem download_panics_on_null_body (net : Net) (StorageEndpoint : String) (f : file)
    (filePath : String) (res : Response) (body : Bytes)
    (hurl : ∀ u, net.parseURL u = Option.none) (hdo : ∀ req, net.Do req = .ok res)
    (hstatus : res.StatusCode ≠ 200) (hbody : res.Body = .ok body)
    (hnull : net.parseJSON body = .ok .null) :
    f.Download net StorageEndpoint filePath = .panic nilDereference := by
  rw [(download_failure_path net StorageEndpoint f filePath res body hurl hdo hstatus hbody).1]
  simp only [failureOf, unmarshalFileErrorResponse, hnull]

/-- C5 on a 500 response whose body is the four bytes `null`. -/
theorem download_panics_on_null_body_witness :
    file.Download (Net.answering 500 nullBody [(nullBody, .null)]) "storage/v1"
      (Storage.From ⟨⟨"https://x.supabase.co", "key"⟩⟩ "b") "a.png"
      = .panic "runtime error: invalid memory address or nil pointer dereference" :=
  download_panics_on_null_body (Net.answering 500 nullBody [(nullBody, .null)]) "storage/v1"
    (Storage.From ⟨⟨"https://x.supabase.co", "key"⟩⟩ "b") "a.png"
    { StatusCode := 500, Header := [], Body := .ok nullBody } nullBody
    (fun _ => rfl) (fun _ => rfl) (by decide) rfl (by rfl)

/-! ## Bucket scoping of URLs -/

/-- C6, as stated, fails: for the handle of bucket `bucket1` the URL of `Move`
is `.../object/move`, whose first segment after `/object/` is `move` (the
bucket id is not in the URL), the URL of `Download` has `authenticated`
there, the bucket id coming second, and for the bucket id `a//b` the URL of
`Upload` holds `a/b`, the doubled separator of the id collapsed. -/
theorem first_segment_is_not_always_bucket :
    file.moveURL "storage/v1" (Storage.From ⟨⟨"https://x.supabase.co", "key"⟩⟩ "bucket1")
      = "https://x.supabase.co/storage/v1/object/move" ∧
    firstSegmentAfterObject
      (file.moveURL "storage/v1" (Storage.From ⟨⟨"https://x.supabase.co", "key"⟩⟩ "bucket1"))
      = some "move" ∧
    file.downloadURL "storage/v1" (Storage.From ⟨⟨"https://x.supabase.co", "key"⟩⟩ "bucket1")
      "a.png" = "https://x.supabase.co/storage/v1/object/authenticated/bucket1/a.png" ∧
    firstSegmentAfterObject
      (file.downloadURL "storage/v1" (Storage.From ⟨⟨"https://x.supabase.co", "key"⟩⟩ "bucket1")
        "a.png") = some "authenticated" ∧
    file.uploadURL "storage/v1" (Storage.From ⟨⟨"https://x.supabase.co", "key"⟩⟩ "a//b") "x"
      = "https://x.supabase.co/storage/v1/object/a/b/x" ∧
    ¬ (∀ (StorageEndpoint : String) (s : Storage) (b : String),
        firstSegmentAfterObject ((s.From b).moveURL StorageEndpoint) = some b) := by
  refine ⟨by decide, by decide, by decide, by decide, by decide, ?_⟩
  intro h
  have h1 := h "storage/v1" ⟨⟨"https://x.supabase.co", "key"⟩⟩ "bucket1"
  revert h1
  decide

theorem replaceAllSlashSlash_cons_ne (c : Char) (hc : c ≠ '/') (rest : List Char) :
    replaceAllSlashSlash (c :: rest) = c :: replaceAllSlashSlash rest := by
  rw [replaceAllSlashSlash]
  intro rest2 h1 _
  exact hc h1

theorem replaceAllSlashSlash_slash_head (t : List Char) :
    ∃ r, replaceAllSlashSlash ('/' :: t) = '/' :: r := by
  cases t with
  | nil => exact ⟨[], by decide⟩
  | cons c t2 =>
    by_cases hc : c = '/'
    · subst hc
      exact ⟨replaceAllSlashSlash t2, by rw [replaceAllSlashSlash]⟩
    · refine ⟨replaceAllSlashSlash (c :: t2), ?_⟩
      rw [replaceAllSlashSlash]
      intro rest2 _ h2
      exact hc (List.cons.inj h2).1

/-- A leading part without a separator is kept, and so is the separator that
follows it. -/
theorem replaceAllSlashSlash_keeps_head (b : List Char) (hb : '/' ∉ b) (t : List Char) :
    ∃ r, replaceAllSlashSlash (b ++ '/' :: t) = b ++ '/' :: r := by
  induction b with
  | nil => simpa using replaceAllSlashSlash_slash_head t
  | cons a b2 ih =>
    have ha : a ≠ '/' := fun h => hb (by simp [h])
    have hb2 : '/' ∉ b2 := fun h => hb (List.mem_cons_of_mem _ h)
    obtain ⟨r, hr⟩ := ih hb2
    exact ⟨r, by rw [List.cons_append, replaceAllSlashSlash_cons_ne a ha, hr, List.cons_append]⟩

theorem removeEmptyFolder_keeps_bucket (b path : String) (hb : '/' ∉ b.data) :
    ∃ rest : String, removeEmptyFolder (b ++ "/" ++ path) = b ++ "/" ++ rest := by
  obtain ⟨r, hr⟩ := replaceAllSlashSlash_keeps_head b.data hb path.data
  refine ⟨⟨r⟩, ?_⟩
  apply String.ext
  simp only [removeEmptyFolder, String.data_append]
  rw [List.append_assoc, List.singleton_append, hr, List.append_assoc,
    List.singleton_append]

/-! ### The URL of the request each operation builds -/

theorem NewRequest_ok_url (net : Net) (method url : String) (body : ReqBody) (req : Request)
    (h : NewRequest net method url body = .ok req) : req.URL = url ∧ req.Body = body := by
  unfold NewRequest at h
  split at h
  · exact Except.noConfusion h
  · injection h with h
    rw [← h]
    exact ⟨rfl, rfl⟩

theorem uploadOrUpdateRequest_url (net : Net) (StorageEndpoint : String) (f : file)
    (path : String) (data : Bytes) (update : Bool) (opts : Option FileUploadOptions) (r : Request)
    (h : f.UploadOrUpdateRequest net StorageEndpoint path data update opts = .ret r) :
    r.URL = f.uploadURL StorageEndpoint path := by
  simp only [file.UploadOrUpdateRequest] at h
  split at h
  · exact Outcome.noConfusion h
  · rename_i req hreq
    injection h with h
    subst h
    have hu := (NewRequest_ok_url _ _ _ _ req hreq).1
    cases update <;> exact hu

theorem moveRequest_url (net : Net) (StorageEndpoint : String) (f : file)
    (fromPath toPath : String) (r : Request)
    (h : f.MoveRequest net StorageEndpoint fromPath toPath = .ret r) :
    r.URL = f.moveURL StorageEndpoint ∧ r.Body = .json (moveCopyBody f fromPath toPath) := by
  simp only [file.MoveRequest] at h
  split at h
  · exact Outcome.noConfusion h
  · rename_i req hreq
    injection h with h
    subst h
    exact NewRequest_ok_url _ _ _ _ req hreq

theorem copyRequest_url (net : Net) (StorageEndpoint : String) (f : file)
    (fromPath toPath : String) (r : Request)
    (h : f.CopyRequest net StorageEndpoint fromPath toPath = .ret r) :
    r.URL = f.copyURL StorageEndpoint := by
  simp only [file.CopyRequest] at h
  split at h
  · exact Outcome.noConfusion h
  · rename_i req hreq
    injection h with h
    subst h
    exact (NewRequest_ok_url _ _ _ _ req hreq).1

theorem bulkRemoveRequest_url (net : Net) (StorageEndpoint : String) (f : file)
    (filePaths : List String) (r : Request)
    (h : f.BulkRemoveRequest net StorageEndpoint filePaths = .ret r) :
    r.URL = f.bulkRemoveURL StorageEndpoint := by
  simp only [file.BulkRemoveRequest] at h
  split at h
  · exact Outcome.noConfusion h
  · rename_i req hreq
    injection h with h
    subst h
    exact (NewRequest_ok_url _ _ _ _ req hreq).1

theorem listRequest_url (net : Net) (StorageEndpoint : String) (f : file)
    (queryPath : String) (options : FileSearchOptions) (r : Request)
    (h : f.ListRequest net StorageEndpoint queryPath options = .ret r) :
    r.URL = f.listURL StorageEndpoint := by
  simp only [file.ListRequest] at h
  split at h
  · exact Outcome.noConfusion h
  · rename_i req hreq
    injection h with h
    subst h
    exact (NewRequest_ok_url _ _ _ _ req hreq).1

theorem remove_recording (net : Net) (StorageEndpoint : String) (f : file) (filePath : String)
    (hurl : net.parseURL (f.removeURL StorageEndpoint filePath) = Option.none) :
    f.Remove net StorageEndpoint (recordingSend ()) filePath
      = some (.wrap "sending http request"
          (.external (f.removeURL StorageEndpoint filePath))) := by
  simp only [file.Remove, NewRequest, hurl, recordingSend]
  rfl

theorem signUpload_recording (net : Net) (StorageEndpoint : String) (f : file)
    (filePath : String) (expiresIn : Int) (zero : SignedURLForUploadResponse)
    (hurl : net.parseURL (f.signUploadURL StorageEndpoint filePath) = Option.none) :
    f.CreateSignedURLForUpload net StorageEndpoint (recordingSend zero) filePath expiresIn
      = .error (.wrap "sending http request"
          (.external (f.signUploadURL StorageEndpoint filePath))) := by
  simp only [file.CreateSignedURLForUpload, NewRequest, hurl, recordingSend]
  rfl

theorem signDownload_recording (net : Net) (StorageEndpoint : String) (f : file)
    (filePath : String) (expiresIn : Int) (zero : SignedURLForDownloadResponse)
    (hurl : net.parseURL (f.signDownloadURL StorageEndpoint filePath) = Option.none) :
    f.CreateSignedURLForDownload net StorageEndpoint (recordingSend zero) filePath expiresIn
      = .error (.wrap "sending http request"
          (.external (f.signDownloadURL StorageEndpoint filePath))) := by
  simp only [file.CreateSignedURLForDownload, NewRequest, hurl, recordingSend]
  rfl

theorem download_recording (net : Net) (StorageEndpoint : String) (f : file) (filePath : String)
    (hurl : net.parseURL (f.downloadURL StorageEndpoint filePath) = Option.none) :
    f.Download net.recording StorageEndpoint filePath
      = .ret (.error (.wrap "sending http request"
          (.external (f.downloadURL StorageEndpoint filePath)))) := by
  simp only [file.Download, NewRequest, Net.recording, hurl]
  rfl

theorem metadata_recording (net : Net) (StorageEndpoint : String) (f : file) (filePath : String)
    (hurl : net.parseURL (f.metadataURL StorageEndpoint filePath) = Option.none) :
    f.GetFileMetadata net.recording StorageEndpoint filePath
      = .ret (.error (.wrap "sending http request"
          (.external (f.metadataURL StorageEndpoint filePath)))) := by
  simp only [file.GetFileMetadata, NewRequest, Net.recording, hurl]
  rfl

/-- The route words written apart from the object root. -/
theorem object_root_routes (x : String) :
    x ++ "/object/" ++ "copy/" = x ++ "/object/copy/" ∧
    x ++ "/object/" ++ "list/" = x ++ "/object/list/" ∧
    x ++ "/object/" ++ "upload/sign/" = x ++ "/object/upload/sign/" ∧
    x ++ "/object/" ++ "sign/" = x ++ "/object/sign/" ∧
    x ++ "/object/" ++ "public/" = x ++ "/object/public/" ∧
    x ++ "/object/" ++ "authenticated/" = x ++ "/object/authenticated/" ∧
    x ++ "/object/" ++ "info/authenticated/" = x ++ "/object/info/authenticated/" ∧
    x ++ "/object/" ++ "move" = x ++ "/object/move" := by
  simp only [String.append_assoc]
  exact ⟨rfl, rfl, rfl, rfl, rfl, rfl, rfl, rfl⟩

/-- C6, amended: for every bucket id `b`, `From(b).BucketId = b`, and every
request an operation of the handle builds has this URL, `ROOT` being
`BaseURL/StorageEndpoint/object/`: `Upload` and `Update` `ROOT` followed by
`removeEmptyFolder(b + "/" + path)`, which starts with `b` and a separator
when `b` holds no separator; `Remove` `ROOT + b + "/" + path`; `BulkRemove`
`ROOT + b`; `Copy`, `List`, the two signing operations, `Download` and
`GetFileMetadata` the route words of the operation (`copy/`, `list/`,
`upload/sign/`, `sign/`, `authenticated/`, `info/authenticated/`) followed by
`b`; `GetPublicURL` returns `ROOT + "public/" + b + "/" + path`; `Move`
`ROOT + "move"` whatever `b` is, the bucket id going into the body as
`bucketId`.  For the operations that hand their request to the transport or
to the send routine, the URL is the one a recording collaborator reports once
`http.NewRequest` has accepted it. -/
theorem bucket_scoping_of_requests (net : Net) (StorageEndpoint : String) (s : Storage)
    (b path toPath : String) (expiresIn : Int) :
    (s.From b).BucketId = b ∧
    (∀ data opts r,
      ((s.From b).UploadRequest net StorageEndpoint path data opts = .ret r ∨
        (s.From b).UpdateRequest net StorageEndpoint path data opts = .ret r) →
      r.URL = s.client.BaseURL ++ "/" ++ StorageEndpoint ++ "/object/"
        ++ removeEmptyFolder (b ++ "/" ++ path)) ∧
    ('/' ∉ b.data → ∃ rest, ∀ data opts r,
      ((s.From b).UploadRequest net StorageEndpoint path data opts = .ret r ∨
        (s.From b).UpdateRequest net StorageEndpoint path data opts = .ret r) →
      r.URL = s.client.BaseURL ++ "/" ++ StorageEndpoint ++ "/object/" ++ b ++ "/" ++ rest) ∧
    (net.parseURL (s.client.BaseURL ++ "/" ++ StorageEndpoint ++ "/object/" ++ b ++ "/" ++ path)
        = Option.none →
      (s.From b).Remove net StorageEndpoint (recordingSend ()) path
        = some (.wrap "sending http request" (.external
            (s.client.BaseURL ++ "/" ++ StorageEndpoint ++ "/object/" ++ b ++ "/" ++ path)))) ∧
    (∀ filePaths r, (s.From b).BulkRemoveRequest net StorageEndpoint filePaths = .ret r →
      r.URL = s.client.BaseURL ++ "/" ++ StorageEndpoint ++ "/object/" ++ b) ∧
    (∀ r, (s.From b).CopyRequest net StorageEndpoint path toPath = .ret r →
      r.URL = s.client.BaseURL ++ "/" ++ StorageEndpoint ++ "/object/" ++ "copy/" ++ b) ∧
    (∀ options r, (s.From b).ListRequest net StorageEndpoint path options = .ret r →
      r.URL = s.client.BaseURL ++ "/" ++ StorageEndpoint ++ "/object/" ++ "list/" ++ b) ∧
    (∀ zero, net.parseURL (s.client.BaseURL ++ "/" ++ StorageEndpoint ++ "/object/"
        ++ "upload/sign/" ++ b ++ "/" ++ path) = Option.none →
      (s.From b).CreateSignedURLForUpload net StorageEndpoint (recordingSend zero) path expiresIn
        = .error (.wrap "sending http request" (.external
            (s.client.BaseURL ++ "/" ++ StorageEndpoint ++ "/object/" ++ "upload/sign/" ++ b
              ++ "/" ++ path)))) ∧
    (∀ zero, net.parseURL (s.client.BaseURL ++ "/" ++ StorageEndpoint ++ "/object/"
        ++ "sign/" ++ b ++ "/" ++ path) = Option.none →
      (s.From b).CreateSignedURLForDownload net StorageEndpoint (recordingSend zero) path
          expiresIn
        = .error (.wrap "sending http request" (.external
            (s.client.BaseURL ++ "/" ++ StorageEndpoint ++ "/object/" ++ "sign/" ++ b
              ++ "/" ++ path)))) ∧
    ((s.From b).GetPublicURL StorageEndpoint path).SignedURL
      = s.client.BaseURL ++ "/" ++ StorageEndpoint ++ "/object/" ++ "public/" ++ b ++ "/" ++ path ∧
    (net.parseURL (s.client.BaseURL ++ "/" ++ StorageEndpoint ++ "/object/"
        ++ "authenticated/" ++ b ++ "/" ++ path) = Option.none →
      (s.From b).Download net.recording StorageEndpoint path
        = .ret (.error (.wrap "sending http request" (.external
            (s.client.BaseURL ++ "/" ++ StorageEndpoint ++ "/object/" ++ "authenticated/" ++ b
              ++ "/" ++ path))))) ∧
    (net.parseURL (s.client.BaseURL ++ "/" ++ StorageEndpoint ++ "/object/"
        ++ "info/authenticated/" ++ b ++ "/" ++ path) = Option.none →
      (s.From b).GetFileMetadata net.recording StorageEndpoint path
        = .ret (.error (.wrap "sending http request" (.external
            (s.client.BaseURL ++ "/" ++ StorageEndpoint ++ "/object/" ++ "info/authenticated/"
              ++ b ++ "/" ++ path))))) ∧
    (∀ r, (s.From b).MoveRequest net StorageEndpoint path toPath = .ret r →
      r.URL = s.client.BaseURL ++ "/" ++ StorageEndpoint ++ "/object/" ++ "move" ∧
      r.Body = .json (.obj [("bucketId", .str b), ("destintionKey", .str toPath),
        ("sourceKey", .str path)])) := by
  obtain ⟨h1, h2, h3, h4, h5, h6, h7, h8⟩ :=
    object_root_routes (s.client.BaseURL ++ "/" ++ StorageEndpoint)
  have hupload : ∀ data opts r,
      ((s.From b).UploadRequest net StorageEndpoint path data opts = .ret r ∨
        (s.From b).UpdateRequest net StorageEndpoint path data opts = .ret r) →
      r.URL = s.client.BaseURL ++ "/" ++ StorageEndpoint ++ "/object/"
        ++ removeEmptyFolder (b ++ "/" ++ path) := by
    intro data opts r hr
    rcases hr with hr | hr
    · exact uploadOrUpdateRequest_url net StorageEndpoint (s.From b) path data false opts r hr
    · exact uploadOrUpdateRequest_url net StorageEndpoint (s.From b) path data true opts r hr
  refine ⟨rfl, hupload, ?_, ?_, ?_, ?_, ?_, ?_, ?_, ?_, ?_, ?_, ?_⟩
  · intro hb
    obtain ⟨rest, hrest⟩ := removeEmptyFolder_keeps_bucket b path hb
    refine ⟨rest, ?_⟩
    intro data opts r hr
    rw [hupload data opts r hr, hrest]
    simp only [String.append_assoc]
  · intro hurl
    exact remove_recording net StorageEndpoint (s.From b) path hurl
  · intro filePaths r hr
    exact bulkRemoveRequest_url net StorageEndpoint (s.From b) filePaths r hr
  · intro r hr
    rw [h1]
    exact copyRequest_url net StorageEndpoint (s.From b) path toPath r hr
  · intro options r hr
    rw [h2]
    exact listRequest_url net StorageEndpoint (s.From b) path options r hr
  · intro zero hurl
    rw [h3] at hurl ⊢
    exact signUpload_recording net StorageEndpoint (s.From b) path expiresIn zero hurl
  · intro zero hurl
    rw [h4] at hurl ⊢
    exact signDownload_recording net StorageEndpoint (s.From b) path expiresIn zero hurl
  · rw [h5]
    rfl
  · intro hurl
    rw [h6] at hurl ⊢
    exact download_recording net StorageEndpoint (s.From b) path hurl
  · intro hurl
    rw [h7] at hurl ⊢
    exact metadata_recording net StorageEndpoint (s.From b) path hurl
  · intro r hr
    rw [h8]
    exact moveRequest_url net StorageEndpoint (s.From b) path toPath r hr

/-- C6, amended, for the bucket `bucket1`, the path `a.png` and a network
that accepts every URL: the requests of `Upload`, `Copy` and `Move` and the
URLs that `Remove` and `Download` hand to their collaborators. -/
theorem bucket_scoping_of_requests_witness :
    '/' ∉ ("bucket1" : String).data ∧
    (∃ r, file.UploadRequest (Net.answering 200 [] []) "storage/v1"
        (Storage.From ⟨⟨"https://x.supabase.co", "key"⟩⟩ "bucket1") "a.png" [] Option.none
        = .ret r ∧
      r.URL = "https://x.supabase.co/storage/v1/object/bucket1/a.png") ∧
    (∃ r, file.CopyRequest (Net.answering 200 [] []) "storage/v1"
        (Storage.From ⟨⟨"https://x.supabase.co", "key"⟩⟩ "bucket1") "a.png" "c.png" = .ret r ∧
      r.URL = "https://x.supabase.co/storage/v1/object/copy/bucket1") ∧
    (∃ r, file.MoveRequest (Net.answering 200 [] []) "storage/v1"
        (Storage.From ⟨⟨"https://x.supabase.co", "key"⟩⟩ "bucket1") "a.png" "c.png" = .ret r ∧
      r.URL = "https://x.supabase.co/storage/v1/object/move") ∧
    file.Remove (Net.answering 200 [] []) "storage/v1"
        (Storage.From ⟨⟨"https://x.supabase.co", "key"⟩⟩ "bucket1") (recordingSend ()) "a.png"
      = some (.wrap "sending http request"
          (.external "https://x.supabase.co/storage/v1/object/bucket1/a.png")) ∧
    file.Download (Net.answering 200 [] []).recording "storage/v1"
        (Storage.From ⟨⟨"https://x.supabase.co", "key"⟩⟩ "bucket1") "a.png"
      = .ret (.error (.wrap "sending http request"
          (.external "https://x.supabase.co/storage/v1/object/authenticated/bucket1/a.png"))) := by
  have h := bucket_scoping_of_requests (Net.answering 200 [] []) "storage/v1"
    ⟨⟨"https://x.supabase.co", "key"⟩⟩ "bucket1" "a.png" "c.png" 60
  obtain ⟨_, hup, _, hremove, _, hcopy, _, _, _, _, hdownload, _, hmove⟩ := h
  refine ⟨by decide, ⟨_, rfl, ?_⟩, ⟨_, rfl, ?_⟩, ⟨_, rfl, ?_⟩, hremove rfl, hdownload rfl⟩
  · exact (hup [] Option.none _ (Or.inl rfl)).trans (by decide)
  · exact (hcopy _ rfl).trans (by decide)
  · exact ((hmove _ rfl).1).trans (by decide)

/-! ## Move and Copy -/

/-- C7: the body of `Move` and of `Copy` names the destination
`destintionKey`: its members are `bucketId`, `destintionKey` and `sourceKey`,
and no member is called `destinationKey`. -/
theorem move_copy_body_misspells_destination (StorageEndpoint : String) (s : Storage)
    (b fromPath toPath : String) :
    (∃ r, (s.From b).MoveRequest (Net.answering 200 [] []) StorageEndpoint fromPath toPath
        = .ret r ∧
      r.Body = .json (.obj [("bucketId", .str b), ("destintionKey", .str toPath),
        ("sourceKey", .str fromPath)])) ∧
    (∃ r, (s.From b).CopyRequest (Net.answering 200 [] []) StorageEndpoint fromPath toPath
        = .ret r ∧
      r.Body = .json (.obj [("bucketId", .str b), ("destintionKey", .str toPath),
        ("sourceKey", .str fromPath)])) ∧
    (moveCopyBody (s.From b) fromPath toPath).memberNames
      = ["bucketId", "destintionKey", "sourceKey"] ∧
    "destinationKey" ∉ (moveCopyBody (s.From b) fromPath toPath).memberNames := by
  refine ⟨⟨_, rfl, rfl⟩, ⟨_, rfl, rfl⟩, rfl, ?_⟩
  simp only [moveCopyBody, Json.memberNames, List.map]
  decide

/-! ## List -/

/-- C8: the body of `List` has `limit = o.Limit`, or 100 when that is zero,
`offset = o.Offset`, the sort column and order of `o`, or `name` and `asc`
where they are empty, and `prefix = p`; it is the payload of the request that
`List` builds; `List` with an empty prefix and zero-valued options sends
limit 100, offset 0, sortBy name and asc and an empty prefix; filling is
idempotent. -/
theorem list_default_filling (net : Net) (StorageEndpoint : String) (f : file) (p : String)
    (o : FileSearchOptions) (hurl : net.parseURL (f.listURL StorageEndpoint) = Option.none) :
    listBody p o =
      { Limit := if o.Limit ≠ 0 then o.Limit else 100
        Offset := o.Offset
        SortBy :=
          { Column := if o.SortBy.Column ≠ "" then o.SortBy.Column else "name"
            Order := if o.SortBy.Order ≠ "" then o.SortBy.Order else "asc" }
        Prefix := p } ∧
    (∃ r, f.ListRequest net StorageEndpoint p o = .ret r ∧
      r.Body = .json (listBody p o).toJson) ∧
    (listBody "" { Limit := 0, Offset := 0, SortBy := { Column := "", Order := "" } }).toJson
      = .obj [("limit", .num "100"), ("offset", .num "0"),
          ("sortBy", .obj [("column", .str "name"), ("order", .str "asc")]),
          ("prefix", .str "")] ∧
    fillSearchOptions (fillSearchOptions o) = fillSearchOptions o := by
  obtain ⟨limit, offset, ⟨column, order⟩⟩ := o
  refine ⟨?_, ⟨_, by simp only [file.ListRequest, NewRequest, hurl]; rfl, rfl⟩, by rfl, ?_⟩
  · simp only [listBody, fillSearchOptions, defaultLimit, defaultOffset, defaultSortOrder,
      defaultSortColumn]
    by_cases h1 : limit = 0 <;> by_cases h2 : offset = 0 <;> by_cases h3 : order = "" <;>
      by_cases h4 : column = "" <;> simp [h1, h2, h3, h4]
  · simp only [fillSearchOptions, defaultLimit, defaultOffset, defaultSortOrder,
      defaultSortColumn]
    by_cases h1 : limit = 0 <;> by_cases h2 : offset = 0 <;> by_cases h3 : order = "" <;>
      by_cases h4 : column = "" <;> simp [h1, h2, h3, h4]

/-- C8 for the prefix `photos/` and options that set only the limit and the
sort order. -/
theorem list_default_filling_witness :
    listBody "photos/" { Limit := 20, Offset := 0, SortBy := { Column := "", Order := "desc" } }
      = { Limit := 20, Offset := 0, SortBy := { Column := "name", Order := "desc" },
          Prefix := "photos/" } ∧
    (∃ r, file.ListRequest (Net.answering 200 [] []) "storage/v1"
        (Storage.From ⟨⟨"https://x.supabase.co", "key"⟩⟩ "b") "photos/"
        { Limit := 20, Offset := 0, SortBy := { Column := "", Order := "desc" } } = .ret r ∧
      r.Body = .json (.obj [("limit", .num "20"), ("offset", .num "0"),
          ("sortBy", .obj [("column", .str "name"), ("order", .str "desc")]),
          ("prefix", .str "photos/")])) := by
  have h := list_default_filling (Net.answering 200 [] []) "storage/v1"
    (Storage.From ⟨⟨"https://x.supabase.co", "key"⟩⟩ "b") "photos/"
    { Limit := 20, Offset := 0, SortBy := { Column := "", Order := "desc" } } rfl
  obtain ⟨h1, ⟨r, hr, hbody⟩, _, _⟩ := h
  exact ⟨by rw [h1]; decide, r, hr, by rw [hbody, h1]; rfl⟩

/-! ## Signed URLs -/

/-- C10: when the send routine succeeds with the relative URL `u` (and, for an
upload, the token `t`), `CreateSignedURLForUpload` and
`CreateSignedURLForDownload` return `BaseURL + "/" + StorageEndpoint + u`, and
the upload token is returned as it came. -/
theorem signed_url_rewriting (net : Net) (StorageEndpoint : String) (f : file)
    (filePath : String) (expiresIn : Int) (u t : String)
    (sendUp : Request → CustomResult SignedURLForUploadResponse)
    (sendDown : Request → CustomResult SignedURLForDownloadResponse)
    (hurl : ∀ x, net.parseURL x = Option.none)
    (hupErr : ∀ req, (sendUp req).err = Option.none)
    (hupCustom : ∀ req, (sendUp req).hasCustomError = false)
    (hupResp : ∀ req, (sendUp req).resp = { SignedURL := u, Token := t })
    (hdownErr : ∀ req, (sendDown req).err = Option.none)
    (hdownCustom : ∀ req, (sendDown req).hasCustomError = false)
    (hdownResp : ∀ req, (sendDown req).resp = { SignedURL := u }) :
    f.CreateSignedURLForUpload net StorageEndpoint sendUp filePath expiresIn
      = .ok { SignedURL := f.storage.client.BaseURL ++ "/" ++ StorageEndpoint ++ u, Token := t } ∧
    f.CreateSignedURLForDownload net StorageEndpoint sendDown filePath expiresIn
      = .ok { SignedURL := f.storage.client.BaseURL ++ "/" ++ StorageEndpoint ++ u } := by
  constructor
  · simp [file.CreateSignedURLForUpload, NewRequest, hurl, hupErr, hupCustom, hupResp]
  · simp [file.CreateSignedURLForDownload, NewRequest, hurl, hdownErr, hdownCustom, hdownResp]

/-- C10 for the service answer `/upload/sign/abc`, with the token `tok` for
the upload. -/
theorem signed_url_rewriting_witness :
    file.CreateSignedURLForUpload (Net.answering 200 [] []) "storage/v1"
        (Storage.From ⟨⟨"https://x.supabase.co", "key"⟩⟩ "b")
        (fun _ => { resp := { SignedURL := "/upload/sign/abc", Token := "tok" },
                    errResp := ⟨"", "", ""⟩, hasCustomError := false, err := Option.none })
        "a.png" 60
      = .ok { SignedURL := "https://x.supabase.co/storage/v1/upload/sign/abc", Token := "tok" } ∧
    file.CreateSignedURLForDownload (Net.answering 200 [] []) "storage/v1"
        (Storage.From ⟨⟨"https://x.supabase.co", "key"⟩⟩ "b")
        (fun _ => { resp := { SignedURL := "/upload/sign/abc" },
                    errResp := ⟨"", "", ""⟩, hasCustomError := false, err := Option.none })
        "a.png" 60
      = .ok { SignedURL := "https://x.supabase.co/storage/v1/upload/sign/abc" } :=
  signed_url_rewriting (Net.answering 200 [] []) "storage/v1"
    (Storage.From ⟨⟨"https://x.supabase.co", "key"⟩⟩ "b") "a.png" 60 "/upload/sign/abc" "tok"
    _ _ (fun _ => rfl) (fun _ => rfl) (fun _ => rfl) (fun _ => rfl) (fun _ => rfl)
    (fun _ => rfl) (fun _ => rfl)

/-! ## The exact collapsing rule -/

theorem replaceAllSlashSlash_doubled (rest : List Char) :
    replaceAllSlashSlash ('/' :: '/' :: rest) = '/' :: replaceAllSlashSlash rest := by
  rw [replaceAllSlashSlash]

/-- Without three separators in a row, what follows a doubled separator does
not start with a separator and has no three in a row either. -/
theorem hasTripleSeparator_doubled (rest : List Char)
    (h : hasTripleSeparator ('/' :: '/' :: rest) = false) :
    (∀ r, rest = '/' :: r → False) ∧ hasTripleSeparator rest = false := by
  have hhead : ∀ r, rest = '/' :: r → False := by
    intro r hr
    subst hr
    rw [hasTripleSeparator] at h
    exact Bool.noConfusion h
  refine ⟨hhead, ?_⟩
  rw [hasTripleSeparator.eq_2 _ _ (fun tail _ h2 => hhead _ (List.cons.inj h2).2),
    hasTripleSeparator.eq_2 _ _ (fun tail _ h2 => hhead _ h2)] at h
  exact h

theorem hasTripleSeparator_tail (c : Char) (rest : List Char)
    (h : hasTripleSeparator (c :: rest) = false) : hasTripleSeparator rest = false := by
  by_cases hm : ∃ tail, c = '/' ∧ rest = '/' :: '/' :: tail
  · obtain ⟨tail, hc, hrest⟩ := hm
    subst hc hrest
    rw [hasTripleSeparator] at h
    exact Bool.noConfusion h
  · rw [hasTripleSeparator.eq_2 _ _ (fun tail h1 h2 => hm ⟨tail, h1, h2⟩)] at h
    exact h

theorem replaceEveryDoubled_flag (rest : List Char) (hhead : ∀ r, rest = '/' :: r → False) :
    replaceEveryDoubled true rest = replaceEveryDoubled false rest := by
  cases rest with
  | nil => rfl
  | cons c cs =>
    have hc : c ≠ '/' := fun h => hhead cs (by rw [h])
    simp [replaceEveryDoubled, hc]

theorem replaceAllSlashSlash_head (rest : List Char) (hhead : ∀ r, rest = '/' :: r → False) :
    ∀ r, replaceAllSlashSlash rest = '/' :: r → False := by
  intro r hr
  cases rest with
  | nil => rw [replaceAllSlashSlash] at hr; exact List.noConfusion hr
  | cons c cs =>
    have hc : c ≠ '/' := fun h => hhead cs (by rw [h])
    rw [replaceAllSlashSlash_cons_ne c hc] at hr
    exact hc (List.cons.inj hr).1

/-- The code agrees with the description when no run is longer than two. -/
theorem replaceAllSlashSlash_eq_replaceEveryDoubled :
    ∀ l, hasTripleSeparator l = false → replaceAllSlashSlash l = replaceEveryDoubled false l := by
  intro l
  induction l using replaceAllSlashSlash.induct with
  | case1 rest ih =>
    intro h
    obtain ⟨hhead, htail⟩ := hasTripleSeparator_doubled rest h
    rw [replaceAllSlashSlash_doubled, ih htail]
    simp [replaceEveryDoubled, replaceEveryDoubled_flag rest hhead]
  | case2 c rest hc ih =>
    intro h
    rw [replaceAllSlashSlash.eq_2 _ _ hc, ih (hasTripleSeparator_tail c rest h)]
    by_cases hs : c = '/'
    · simp [replaceEveryDoubled, hs, replaceEveryDoubled_flag rest (fun r hr => hc r hs hr)]
    · have hfalse : (c == '/') = false := by simpa using hs
      simp [replaceEveryDoubled, hfalse]
  | case3 => intro _; rfl

theorem replaceAllSlashSlash_no_doubled :
    ∀ l, hasTripleSeparator l = false → hasDoubledSeparator (replaceAllSlashSlash l) = false := by
  intro l
  induction l using replaceAllSlashSlash.induct with
  | case1 rest ih =>
    intro h
    obtain ⟨hhead, htail⟩ := hasTripleSeparator_doubled rest h
    rw [replaceAllSlashSlash_doubled,
      hasDoubledSeparator.eq_2 _ _ (fun r _ hr => replaceAllSlashSlash_head rest hhead r hr)]
    exact ih htail
  | case2 c rest hc ih =>
    intro h
    rw [replaceAllSlashSlash.eq_2 _ _ hc,
      hasDoubledSeparator.eq_2 _ _
        (fun r hs hr => replaceAllSlashSlash_head rest (fun r2 hr2 => hc r2 hs hr2) r hr)]
    exact ih (hasTripleSeparator_tail c rest h)
  | case3 => intro _; rfl

theorem replaceAllSlashSlash_length :
    ∀ l, hasTripleSeparator l = false →
      (replaceAllSlashSlash l).length + countDoubledSeparator l = l.length := by
  intro l
  induction l using replaceAllSlashSlash.induct with
  | case1 rest ih =>
    intro h
    obtain ⟨hhead, htail⟩ := hasTripleSeparator_doubled rest h
    rw [replaceAllSlashSlash_doubled, countDoubledSeparator,
      countDoubledSeparator.eq_2 _ _ (fun r _ hr => hhead r hr)]
    have := ih htail
    simp only [List.length_cons]
    omega
  | case2 c rest hc ih =>
    intro h
    rw [replaceAllSlashSlash.eq_2 _ _ hc, countDoubledSeparator.eq_2 _ _ hc]
    have := ih (hasTripleSeparator_tail c rest h)
    simp only [List.length_cons]
    omega
  | case3 => intro _; rfl

theorem replaceAllSlashSlash_unchanged :
    ∀ l, hasDoubledSeparator l = false → replaceAllSlashSlash l = l := by
  intro l
  induction l using replaceAllSlashSlash.induct with
  | case1 rest ih =>
    intro h
    rw [hasDoubledSeparator] at h
    exact Bool.noConfusion h
  | case2 c rest hc ih =>
    intro h
    rw [hasDoubledSeparator.eq_2 _ _ hc] at h
    rw [replaceAllSlashSlash.eq_2 _ _ hc, ih h]
  | case3 => intro _; rfl

/-- C11: for an input in which no run of separators is longer than two,
`removeEmptyFolder` returns the input with every `//` replaced by a single
`/`, the result holds no `//`, and it is shorter than the input by exactly the
number of occurrences of `//`; an input without `//` comes back unchanged; and
`bucket//dir/file.txt` becomes `bucket/dir/file.txt`. -/
theorem removeEmptyFolder_exact_rule (filePath : String)
    (hrun : hasTripleSeparator filePath.data = false) :
    removeEmptyFolder filePath = ⟨replaceEveryDoubled false filePath.data⟩ ∧
    hasDoubledSeparator (removeEmptyFolder filePath).data = false ∧
    (removeEmptyFolder filePath).length + countDoubledSeparator filePath.data
      = filePath.length ∧
    (hasDoubledSeparator filePath.data = false → removeEmptyFolder filePath = filePath) ∧
    removeEmptyFolder "bucket//dir/file.txt" = "bucket/dir/file.txt" := by
  refine ⟨?_, ?_, ?_, ?_, by decide⟩
  · simp only [removeEmptyFolder]
    rw [replaceAllSlashSlash_eq_replaceEveryDoubled filePath.data hrun]
  · exact replaceAllSlashSlash_no_doubled filePath.data hrun
  · exact replaceAllSlashSlash_length filePath.data hrun
  · intro hnone
    simp only [removeEmptyFolder]
    rw [replaceAllSlashSlash_unchanged filePath.data hnone]

/-- C11 at `bucket//dir//file.txt`, which holds `//` twice: the result is
`bucket/dir/file.txt`, two characters shorter. -/
theorem removeEmptyFolder_exact_rule_witness :
    hasTripleSeparator ("bucket//dir//file.txt" : String).data = false ∧
    removeEmptyFolder "bucket//dir//file.txt" = "bucket/dir/file.txt" ∧
    hasDoubledSeparator (removeEmptyFolder "bucket//dir//file.txt").data = false ∧
    countDoubledSeparator ("bucket//dir//file.txt" : String).data = 2 ∧
    (removeEmptyFolder "bucket//dir//file.txt").length + 2
      = ("bucket//dir//file.txt" : String).length := by
  have h := removeEmptyFolder_exact_rule "bucket//dir//file.txt" (by decide)
  exact ⟨by decide, h.1.trans (by decide), h.2.1, by decide, h.2.2.1⟩

end Supabase
